import Mathlib

/-!
# Verification of the venture-tracking app (`src/src/App.jsx`)

Shallow embedding of the data-reconciliation and derived-metrics layer of
the single-page app: the persisted venture store (`load`/`save`/`add`/
`delete`), the market-data fallback paths, and the metrics reconciler
(`totalRevenue`, `currentStockValue`, `stockGain`, the Bitcoin revenue
patch and its display formatting).

Modelling conventions:
* JS numbers are modelled as `ℚ`; `Math.round x` is `⌊x + 1/2⌋` (JS rounds
  halves toward +∞).
* A JS value fed to `parseFloat` is modelled as `Option ℚ`: `some q` when
  the value parses to the number `q`, `none` when parsing yields `NaN`.
  `parseFloat(x) || 0` is then `Option.getD · 0` (both `NaN` and `0` give 0).
* JS truthiness of a number is "non-null and non-zero"; of a string,
  "non-empty".
* `Number.prototype.toLocaleString()` is modelled for the default `en-US`
  locale: thousands separated by commas, at most three fraction digits,
  halves rounded away from zero, trailing fraction zeros dropped.
* Persisted storage is a key-value cell holding `Option (List Venture)`
  (`none` = key absent); the JSON round trip is faithful on venture lists,
  so `save` is modelled as wrapping the list in `some`.
-/

/-- JS `Math.round`: rounds to the nearest integer, halves toward +∞. -/
def jsRound (x : ℚ) : ℤ := ⌊x + 1/2⌋

/-- JS `String.prototype.trim`: strip leading and trailing whitespace. -/
def jsTrim (s : String) : String :=
  String.mk ((s.data.dropWhile Char.isWhitespace).reverse.dropWhile Char.isWhitespace).reverse

/-- `parseFloat(x) || 0`: a non-numeric value (`NaN`, modelled `none`)
contributes 0, as does an actual 0. -/
def jsNum (r : Option ℚ) : ℚ := r.getD 0

/-- Insert a comma after every third character; applied to the reversed
digit list of a number, this produces `en-US` thousands grouping. -/
def chunk3 : List Char → List Char
  | a :: b :: c :: d :: rest => a :: b :: c :: ',' :: chunk3 (d :: rest)
  | l => l

/-- Decimal rendering of a natural number with `en-US` comma grouping. -/
def groupedNat (n : ℕ) : String :=
  String.mk (chunk3 (toString n).data.reverse).reverse

/-- Left-pad a string with `'0'` to length three. -/
def padTo3 (s : String) : String :=
  if 3 ≤ s.length then s else String.mk (List.replicate (3 - s.length) '0') ++ s

/-- Drop trailing `'0'` characters. -/
def stripTrailingZeros (s : String) : String :=
  String.mk (s.data.reverse.dropWhile (fun c => c = '0')).reverse

/-- JS `Number.prototype.toLocaleString()` in the default `en-US` locale:
up to three fraction digits (halves away from zero), no trailing fraction
zeros, comma-grouped integer part. -/
def ratLocaleString (q : ℚ) : String :=
  let sign := if q < 0 then "-" else ""
  let scaled : ℤ := ⌊|q| * 1000 + 1/2⌋
  let ip : ℕ := (scaled / 1000).toNat
  let fp : ℕ := (scaled % 1000).toNat
  sign ++ groupedNat ip ++
    (if fp = 0 then "" else "." ++ stripTrailingZeros (padTo3 (toString fp)))

/-! ## Compiled-in constants (`App.jsx` lines 4–13) -/

def INITIAL_INVESTMENT : ℚ := 10000

/-- Google stock price on Jan 3, 2023 (`89.83`). -/
def GOOGLE_START_PRICE : ℚ := 8983 / 100

def BTC_INVESTMENT : ℚ := 1000

/-- BTC price on Aug 15, 2025 (`117384.44`). -/
def BTC_PRICE_AUG_2025 : ℚ := 11738444 / 100

/-! ## Data model -/

/-- One venture record. `revenue` is the `parseFloat` view of the stored
value (`none` = non-numeric); `isBitcoin` is the crypto discriminator, a
field absent (hence falsy) on ordinary records, modelled by the default
`false`. -/
structure Venture where
  id : ℤ
  name : String
  revenue : Option ℚ
  expenses : String
  isBitcoin : Bool := false
deriving DecidableEq, Repr

instance : Inhabited Venture := ⟨{ id := 0, name := "", revenue := none, expenses := "" }⟩

/-- The synthetic Bitcoin venture appended by the loader and present in the
seed list (`App.jsx` lines 23 and 33). -/
def btcVenture : Venture :=
  { id := 8, name := "Bitcoin Investor", revenue := some 0, expenses := "$1,000", isBitcoin := true }

/-- The hardcoded seed list (`initialVentures`, `App.jsx` lines 15–24). -/
def initialVentures : List Venture :=
  [ { id := 1, name := "Rarely open coffee cart", revenue := some 0, expenses := "Time wasted" },
    { id := 2, name := "Questionably exploitative house cleaning service", revenue := some 0, expenses := "Online training course" },
    { id := 3, name := "Vague restaurant/food cart", revenue := some 0, expenses := "Time wasted" },
    { id := 4, name := "PYOP + Kiln", revenue := some 0, expenses := "$100" },
    { id := 5, name := "CRE Cleaning Franchise (also maybe exploitative)", revenue := some 0, expenses := "Time wasted" },
    { id := 6, name := "Alarm and security company", revenue := some 0, expenses := "Time wasted" },
    { id := 7, name := "Wilmington-based landscaping", revenue := some 0, expenses := "Time wasted" },
    btcVenture ]

/-! ## Persisted venture store -/

/-- The `useState` initializer (`App.jsx` lines 27–38): read the saved
list; if present, append the Bitcoin venture unless some record already
carries the discriminator; if absent, return the seed list. -/
def loadVentures (saved : Option (List Venture)) : List Venture :=
  match saved with
  | some parsed =>
      if parsed.any (fun v => v.isBitcoin) then parsed else parsed ++ [btcVenture]
  | none => initialVentures

/-- The persistence effect (`App.jsx` lines 49–51): serialize the full list
verbatim. The JSON round trip is faithful, so saving is wrapping in `some`. -/
def saveVentures (vs : List Venture) : Option (List Venture) := some vs

/-- `addVenture` (`App.jsx` lines 224–234). `newId` stands for
`Date.now()`; `revenueInput` is the `parseFloat` view of the revenue form
field; an empty expenses string falls back to `'Time wasted'`. -/
def addVenture (vs : List Venture) (name : String) (revenueInput : Option ℚ)
    (expensesInput : String) (newId : ℤ) : List Venture :=
  if jsTrim name = "" then vs
  else vs ++ [{ id := newId, name := name, revenue := some (jsNum revenueInput),
                expenses := if expensesInput = "" then "Time wasted" else expensesInput }]

/-- `deleteVenture` (`App.jsx` lines 236–238): keep every record whose id
differs. -/
def deleteVenture (vs : List Venture) (id : ℤ) : List Venture :=
  vs.filter (fun v => v.id ≠ id)

/-- The presenter guard (`App.jsx` lines 374–378): the delete button is
rendered only when `!venture.isBitcoin`. -/
def deleteButtonShown (v : Venture) : Bool := !v.isBitcoin

/-! ## Metrics reconciler -/

/-- Body of the Bitcoin-revenue patch (`App.jsx` lines 62–64): on the
crypto record, replace `revenue` by `Math.round(bitcoinValue - BTC_INVESTMENT)`. -/
def updateBitcoinVenture (bitcoinValue : ℚ) (v : Venture) : Venture :=
  if v.isBitcoin then { v with revenue := some ((jsRound (bitcoinValue - BTC_INVESTMENT) : ℤ) : ℚ) }
  else v

/-- The `useEffect` patch applied when the Bitcoin value settles
(`App.jsx` lines 60–66). -/
def patchBitcoinRevenue (bitcoinValue : ℚ) (vs : List Venture) : List Venture :=
  vs.map (updateBitcoinVenture bitcoinValue)

/-- `totalRevenue` (`App.jsx` lines 202–209). The source branches on
`v.isBitcoin`, but both branches add `parseFloat(v.revenue) || 0`; the
redundant branch is kept. -/
def totalRevenue (vs : List Venture) : ℚ :=
  vs.foldl
    (fun sum v =>
      if v.isBitcoin then sum + jsNum v.revenue else sum + jsNum v.revenue) 0

/-- `shares = INITIAL_INVESTMENT / GOOGLE_START_PRICE` (`App.jsx` line 211). -/
def shares : ℚ := INITIAL_INVESTMENT / GOOGLE_START_PRICE

/-- `currentStockValue` (`App.jsx` line 212): `googlePrice` is truthy
(non-null, non-zero) or the result is null. -/
def currentStockValue (googlePrice : Option ℚ) : Option ℤ :=
  match googlePrice with
  | some p => if p ≠ 0 then some (jsRound (shares * p)) else none
  | none => none

/-- `stockGain` (`App.jsx` line 213): null unless `currentStockValue` is
truthy. -/
def stockGain (googlePrice : Option ℚ) : Option ℚ :=
  match currentStockValue googlePrice with
  | some c => if (c : ℚ) ≠ 0 then some ((c : ℚ) - INITIAL_INVESTMENT) else none
  | none => none

/-- `isEntrepreneur` (`App.jsx` line 240). -/
def isEntrepreneur (vs : List Venture) : Bool := totalRevenue vs > 0

/-- `getBitcoinRevenueDisplay` (`App.jsx` lines 216–222). For the crypto
record the recomputed profit is shown with a `'+'`-prefix when
non-negative; for ordinary records the plain unsigned dollar format. -/
def getBitcoinRevenueDisplay (bitcoinValue : Option ℚ) (venture : Venture) : String :=
  if venture.isBitcoin = false then "$" ++ ratLocaleString (jsNum venture.revenue)
  else
    match bitcoinValue with
    | none => "..."
    | some bv =>
        let profit := jsRound (bv - BTC_INVESTMENT)
        let pfx := if 0 ≤ profit then "+" else ""
        pfx ++ "$" ++ ratLocaleString ((profit : ℤ) : ℚ)

/-! ## Market data fetcher -/

/-- One point of the equity history (`App.jsx` lines 148–160). The
`date` field of the source is the locale formatting of `fullDate` and is
not modelled separately; `fullDate` is the source timestamp. -/
structure PricePoint where
  fullDate : ℤ
  stockValue : Option ℤ
  alexRevenue : ℚ
deriving DecidableEq, Repr

/-- Body of the history `map` (`App.jsx` lines 148–159): JS truthiness
makes both a null/missing price and a price of 0 produce a null
`stockValue`; a null/zero intermediate `stockValue` is likewise nulled
before rounding. -/
def mkHistoryPoint (ts : ℤ) (price : Option ℚ) : PricePoint :=
  let stockValue : Option ℚ :=
    match price with
    | some p => if p ≠ 0 then some (shares * p) else none
    | none => none
  { fullDate := ts
    stockValue :=
      match stockValue with
      | some v => if v ≠ 0 then some (jsRound v) else none
      | none => none
    alexRevenue := 0 }

/-- Truthiness of a source close price: present and non-zero. -/
def keepPrice : Option ℚ → Bool
  | some p => decide (p ≠ 0)
  | none => false

/-- The produced history (`App.jsx` lines 148–160): map over the
timestamps with their parallel close prices (missing entries read as
`undefined`, modelled `none`), then drop the points whose `stockValue`
is null. -/
def googleHistory (timestamps : List ℤ) (prices : List (Option ℚ)) : List PricePoint :=
  ((timestamps.enum.map fun q => mkHistoryPoint q.2 (prices.getD q.1 none)).filter
    fun d => d.stockValue.isSome)

/-- One point of the synthetic fallback series (`App.jsx` lines 187–192).
`monthIndex` is the `monthsElapsed` of the source: the point's `fullDate`
is the start date advanced by `monthIndex` calendar months, so dates
increase strictly in `monthIndex`. -/
structure FallbackPoint where
  monthIndex : ℕ
  stockValue : ℤ
  alexRevenue : ℚ
deriving DecidableEq, Repr

instance : Inhabited FallbackPoint := ⟨{ monthIndex := 0, stockValue := 0, alexRevenue := 0 }⟩

/-- `Math.pow(1.027, monthsElapsed)` (`App.jsx` line 184). -/
def fallbackGrowthFactor (k : ℕ) : ℚ := (1027 / 1000) ^ k

/-- `Math.round(INITIAL_INVESTMENT * growthFactor)` (`App.jsx` line 185). -/
def fallbackStockValue (k : ℕ) : ℤ := jsRound (INITIAL_INVESTMENT * fallbackGrowthFactor k)

/-- The point pushed by one iteration of the fallback loop (`App.jsx`
lines 187–192). -/
def mkFallbackPoint (k : ℕ) : FallbackPoint :=
  { monthIndex := k, stockValue := fallbackStockValue k, alexRevenue := 0 }

/-- The `while (current <= now)` loop of the fallback branch (`App.jsx`
lines 180–195): starting at month offset `k`, push one point per month up
to and including offset `n`, where `n` is the number of whole calendar
months from the start date to "now" (well defined since "now" postdates
the fixed 2023 start date). -/
def fallbackMonths (k n : ℕ) : List FallbackPoint :=
  if k ≤ n then mkFallbackPoint k :: fallbackMonths (k + 1) n
  else []
termination_by n + 1 - k

/-- The synthetic history produced when both equity fetches fail
(`App.jsx` lines 173–197). -/
def fallbackHistory (n : ℕ) : List FallbackPoint := fallbackMonths 0 n

/-- The advisory set in the same catch branch (`App.jsx` line 170). -/
def fallbackError : String := "Could not fetch live data. Using estimated values."

/-- The estimated current price set in the catch branch (`App.jsx` line 169). -/
def fallbackGooglePrice : ℚ := 197

/-! ## Evaluation lemmas for the rational helpers -/

/-- Adding `1/2` to an integer floors back to that integer. -/
lemma floor_intCast_add_half (z : ℤ) : ⌊(z : ℚ) + 1/2⌋ = z := by
  rw [add_comm, Int.floor_add_int]
  norm_num [Int.floor_eq_iff]

/-- `jsRound` is the identity on integers. -/
lemma jsRound_intCast (z : ℤ) : jsRound ((z : ℤ) : ℚ) = z := by
  unfold jsRound
  exact floor_intCast_add_half z

/-- `toLocaleString` of an integer value: optional sign followed by the
comma-grouped decimal digits (no fraction part). -/
lemma ratLocaleString_intCast (n : ℤ) :
    ratLocaleString ((n : ℤ) : ℚ) = (if n < 0 then "-" else "") ++ groupedNat n.natAbs := by
  unfold ratLocaleString
  have habs : |((n : ℤ) : ℚ)| = (((n.natAbs * 1000 : ℤ) : ℚ)) / 1000 := by
    rw [← Int.cast_abs, Int.abs_eq_natAbs]
    push_cast
    ring
  have hscaled : ⌊|((n : ℤ) : ℚ)| * 1000 + 1/2⌋ = (n.natAbs * 1000 : ℤ) := by
    rw [habs, div_mul_cancel₀]
    · exact floor_intCast_add_half _
    · norm_num
  have hip : ((n.natAbs * 1000 : ℤ) / 1000).toNat = n.natAbs := by
    omega
  have hfp : ((n.natAbs * 1000 : ℤ) % 1000).toNat = 0 := by
    omega
  have hsign : (((n : ℤ) : ℚ) < 0) = (n < 0) := by
    simp [Int.cast_lt_zero]
  simp only [hscaled, hip, hfp, hsign, if_pos rfl]
  simp

/-! ## Helper lemmas -/

/-- The crypto profit at a Bitcoin value of 900. -/
lemma jsRound_profit_900 : jsRound ((900 : ℚ) - BTC_INVESTMENT) = -100 := by
  unfold jsRound BTC_INVESTMENT
  norm_num [Int.floor_eq_iff]

/-- The crypto profit at a Bitcoin value of 1200. -/
lemma jsRound_profit_1200 : jsRound ((1200 : ℚ) - BTC_INVESTMENT) = 200 := by
  unfold jsRound BTC_INVESTMENT
  norm_num [Int.floor_eq_iff]

/-- The share count `10000 / 89.83` is non-zero. -/
lemma shares_ne_zero : shares ≠ 0 := by
  unfold shares INITIAL_INVESTMENT GOOGLE_START_PRICE
  norm_num

/-- The round of the portfolio value at a Google price of 100. -/
lemma currentStockValue_at_100 : currentStockValue (some 100) = some 11132 := by
  simp only [currentStockValue, shares, INITIAL_INVESTMENT, GOOGLE_START_PRICE, jsRound]
  norm_num [Int.floor_eq_iff]

/-- A history point's `stockValue` is present exactly when the source
price is truthy. -/
lemma mkHistoryPoint_isSome (ts : ℤ) (po : Option ℚ) :
    (mkHistoryPoint ts po).stockValue.isSome = keepPrice po := by
  cases po with
  | none => rfl
  | some p =>
      by_cases hp : p = 0
      · simp [mkHistoryPoint, keepPrice, hp]
      · have hv : shares * p ≠ 0 := mul_ne_zero shares_ne_zero hp
        simp [mkHistoryPoint, keepPrice, hp, hv]

/-- On a truthy source price the history point carries the rounded
portfolio value. -/
lemma mkHistoryPoint_stockValue_some (ts : ℤ) (p : ℚ) (hp : p ≠ 0) :
    (mkHistoryPoint ts (some p)).stockValue = some (jsRound (shares * p)) := by
  have hv : shares * p ≠ 0 := mul_ne_zero shares_ne_zero hp
  simp [mkHistoryPoint, hp, hv]

/-- The fallback loop from offset `k` produces the points for offsets
`k, k+1, …, n`. -/
lemma fallbackMonths_eq (fuel k n : ℕ) (h : n + 1 - k = fuel) :
    fallbackMonths k n = (List.range' k fuel).map mkFallbackPoint := by
  induction fuel generalizing k with
  | zero =>
      unfold fallbackMonths
      rw [if_neg (by omega)]
      rfl
  | succ m ih =>
      unfold fallbackMonths
      rw [if_pos (by omega), List.range'_succ, List.map_cons, ih (k + 1) (by omega)]

/-- The fallback history is the mapped range of month offsets `0 … n`. -/
lemma fallbackHistory_eq (n : ℕ) :
    fallbackHistory n = (List.range (n + 1)).map mkFallbackPoint := by
  rw [fallbackHistory, fallbackMonths_eq (n + 1) 0 n (by omega), List.range_eq_range']

/-- Unfolding the `totalRevenue` fold: it adds up the numeric revenue
values on top of the accumulator. -/
lemma totalRevenue_foldl (vs : List Venture) (c : ℚ) :
    vs.foldl (fun sum v => if v.isBitcoin then sum + jsNum v.revenue else sum + jsNum v.revenue) c
      = c + (vs.map fun v => jsNum v.revenue).sum := by
  induction vs generalizing c with
  | nil => simp
  | cons v vs ih =>
      rw [List.foldl_cons, ih]
      simp only [List.map_cons, List.sum_cons, ite_self]
      ring

/-- Concrete evaluation of the history builder used as witness input: of
two timestamps, the second has a null price and is dropped. -/
lemma googleHistory_example :
    googleHistory [100, 200] [some 100, none] = [mkHistoryPoint 100 (some 100)] := by
  have h1 : (mkHistoryPoint 100 (some (100 : ℚ))).stockValue.isSome = true := by
    rw [mkHistoryPoint_isSome]; decide
  have h2 : (mkHistoryPoint 200 (none : Option ℚ)).stockValue.isSome = false := by
    rw [mkHistoryPoint_isSome]; rfl
  simp [googleHistory, List.enum, List.enumFrom, List.filter_cons, h1, h2]

/-! ## Claim theorems -/

/-- C1: for every persisted venture list in which no record carries the
crypto discriminator, `load()` returns a list with exactly one
crypto-discriminated record, with revenue 0 and the fixed `"$1,000"`
expenses string; with no persisted data, `load()` returns the hardcoded
seed list, which also contains exactly one crypto-discriminated record. -/
theorem loadVentures_crypto_unique (parsed : List Venture)
    (h : ∀ v ∈ parsed, v.isBitcoin = false) :
    (loadVentures (some parsed)).countP (fun v => v.isBitcoin) = 1
    ∧ (∀ v ∈ loadVentures (some parsed), v.isBitcoin = true →
        v.revenue = some 0 ∧ v.expenses = "$1,000")
    ∧ loadVentures none = initialVentures
    ∧ initialVentures.countP (fun v => v.isBitcoin) = 1 := by
  have hany : parsed.any (fun v => v.isBitcoin) = false := by
    rw [List.any_eq_false]
    intro v hv
    simp [h v hv]
  have hload : loadVentures (some parsed) = parsed ++ [btcVenture] := by
    simp [loadVentures, hany]
  refine ⟨?_, ?_, rfl, by decide⟩
  · rw [hload, List.countP_append]
    have hz : parsed.countP (fun v => v.isBitcoin) = 0 :=
      List.countP_eq_zero.mpr (by intro a ha; simp [h a ha])
    rw [hz]
    decide
  · intro v hv hb
    rw [hload] at hv
    rcases List.mem_append.mp hv with h1 | h2
    · rw [h v h1] at hb
      cases hb
    · rw [List.mem_singleton.mp h2]
      exact ⟨rfl, rfl⟩

theorem loadVentures_crypto_unique_witness :
    (loadVentures (some ([] : List Venture))).countP (fun v => v.isBitcoin) = 1 :=
  (loadVentures_crypto_unique [] (by simp)).1

/-- C3 counterexample: `deleteVenture` invoked with the crypto record's id
does change the list — it removes the crypto record. -/
theorem deleteVenture_crypto_counterexample :
    deleteVenture initialVentures 8 ≠ initialVentures
    ∧ (deleteVenture initialVentures 8).countP (fun v => v.isBitcoin) = 0 := by
  decide

/-- C3 (amended): `deleteVenture` itself removes a matching record even if
it is the crypto one; non-deletion of the crypto record is enforced by the
presenter, which renders a delete button only for non-crypto rows, so any
delete reachable through the UI — an id carried by no crypto record —
leaves every crypto record in the list. -/
theorem deleteVenture_guard (vs : List Venture) (targetId : ℤ)
    (h : ∀ v ∈ vs, v.isBitcoin = true → v.id ≠ targetId) :
    (∀ v ∈ vs, v.isBitcoin = true → deleteButtonShown v = false)
    ∧ (deleteVenture vs targetId).filter (fun v => v.isBitcoin)
        = vs.filter (fun v => v.isBitcoin) := by
  constructor
  · intro v _ hb
    simp [deleteButtonShown, hb]
  · unfold deleteVenture
    rw [List.filter_comm, List.filter_eq_self]
    intro v hv
    rcases List.mem_filter.mp hv with ⟨hmem, hbit⟩
    simp [h v hmem hbit]

theorem deleteVenture_guard_witness :
    (deleteVenture initialVentures 1).filter (fun v => v.isBitcoin)
      = initialVentures.filter (fun v => v.isBitcoin) :=
  (deleteVenture_guard initialVentures 1 (by decide)).2

/-- C4: `totalRevenue` is the sum over all ventures of the numeric value
of the revenue field (non-numeric revenue contributing 0); when every
venture's numeric revenue is 0, `totalRevenue` is 0 and the entrepreneur
verdict is the negative case. -/
theorem totalRevenue_spec (vs : List Venture) :
    totalRevenue vs = (vs.map fun v => jsNum v.revenue).sum
    ∧ ((∀ v ∈ vs, jsNum v.revenue = 0) →
        totalRevenue vs = 0 ∧ isEntrepreneur vs = false) := by
  have he : totalRevenue vs = (vs.map fun v => jsNum v.revenue).sum := by
    unfold totalRevenue
    rw [totalRevenue_foldl]
    ring
  refine ⟨he, fun hz => ?_⟩
  have h0 : totalRevenue vs = 0 := by
    rw [he]
    apply List.sum_eq_zero
    intro x hx
    rcases List.mem_map.mp hx with ⟨v, hv, rfl⟩
    exact hz v hv
  exact ⟨h0, by simp [isEntrepreneur, h0]⟩

theorem totalRevenue_spec_witness :
    totalRevenue initialVentures = 0 ∧ isEntrepreneur initialVentures = false :=
  (totalRevenue_spec initialVentures).2
    (by simp [initialVentures, btcVenture, jsNum])

/-- C8: `load()` is idempotent — loading what `save` wrote after a first
`load()` returns the first `load()`'s output unchanged (the crypto
migration fires at most once). -/
theorem loadVentures_idempotent (s : Option (List Venture)) :
    loadVentures (saveVentures (loadVentures s)) = loadVentures s := by
  cases s with
  | none =>
      have h : initialVentures.any (fun v => v.isBitcoin) = true := by decide
      simp [loadVentures, saveVentures, h]
  | some l =>
      cases hl : l.any (fun v => v.isBitcoin) with
      | true => simp [loadVentures, saveVentures, hl]
      | false =>
          have h2 : (l ++ [btcVenture]).any (fun v => v.isBitcoin) = true := by
            simp [List.any_append, btcVenture]
          simp [loadVentures, saveVentures, hl, h2]

/-- C9: adding with an empty-after-trim name is a no-op; otherwise exactly
one record is appended, its revenue the parsed number (0 on parse
failure) and its expenses the fixed `"Time wasted"` placeholder when the
input was empty. -/
theorem addVenture_spec (vs : List Venture) (name : String) (revenueInput : Option ℚ)
    (expensesInput : String) (newId : ℤ) :
    (jsTrim name = "" → addVenture vs name revenueInput expensesInput newId = vs)
    ∧ (jsTrim name ≠ "" →
        addVenture vs name revenueInput expensesInput newId
          = vs ++ [{ id := newId, name := name, revenue := some (jsNum revenueInput),
                     expenses := if expensesInput = "" then "Time wasted" else expensesInput }]) := by
  constructor
  · intro h
    simp [addVenture, h]
  · intro h
    simp [addVenture, h]

theorem addVenture_spec_witness :
    addVenture [] "   " (some 5) "" 1 = []
    ∧ addVenture [] "Pickle Stand" none "" 2
        = [{ id := 2, name := "Pickle Stand", revenue := some 0, expenses := "Time wasted" }] := by
  constructor
  · exact (addVenture_spec [] "   " (some 5) "" 1).1 (by decide)
  · simpa using (addVenture_spec [] "Pickle Stand" none "" 2).2 (by decide)

/-- C10: the crypto-revenue patch is frame-preserving — it is a map that
keeps length and order, leaves every non-crypto record entirely
unchanged, and on crypto records changes only the revenue field while
preserving id, name, expenses and the discriminator. -/
theorem patchBitcoinRevenue_frame (bv : ℚ) (vs : List Venture) :
    patchBitcoinRevenue bv vs = vs.map (updateBitcoinVenture bv)
    ∧ (patchBitcoinRevenue bv vs).length = vs.length
    ∧ (∀ v ∈ vs, v.isBitcoin = false → updateBitcoinVenture bv v = v)
    ∧ (∀ v : Venture,
        (updateBitcoinVenture bv v).id = v.id
        ∧ (updateBitcoinVenture bv v).name = v.name
        ∧ (updateBitcoinVenture bv v).expenses = v.expenses
        ∧ (updateBitcoinVenture bv v).isBitcoin = v.isBitcoin) := by
  refine ⟨rfl, by simp [patchBitcoinRevenue], ?_, ?_⟩
  · intro v _ hb
    simp [updateBitcoinVenture, hb]
  · intro v
    unfold updateBitcoinVenture
    by_cases hb : v.isBitcoin <;> simp [hb]

theorem patchBitcoinRevenue_frame_witness :
    updateBitcoinVenture 5
        { id := 1, name := "Rarely open coffee cart", revenue := some 0, expenses := "Time wasted" }
      = { id := 1, name := "Rarely open coffee cart", revenue := some 0, expenses := "Time wasted" } :=
  (patchBitcoinRevenue_frame 5 initialVentures).2.2.1 _ (by decide) rfl

/-- C5: when both equity fetches fail, the synthesized history (for `n`
whole months elapsed from the fixed start date to now) is non-empty, its
month offsets start at the start date and strictly increase in monthly
steps, every point's `stockValue` is `round(initialInvestment *
growthFactor)` for the fixed compound monthly rate, and the error
advisory is a non-empty string. -/
theorem fallbackHistory_spec (n : ℕ) :
    fallbackHistory n ≠ []
    ∧ (fallbackHistory n).length = n + 1
    ∧ ((fallbackHistory n).getD 0 default).monthIndex = 0
    ∧ (∀ j, j + 1 ≤ n →
        ((fallbackHistory n).getD j default).monthIndex + 1
          = ((fallbackHistory n).getD (j + 1) default).monthIndex)
    ∧ (∀ pt ∈ fallbackHistory n,
        pt.stockValue = jsRound (INITIAL_INVESTMENT * fallbackGrowthFactor pt.monthIndex))
    ∧ fallbackError ≠ "" := by
  have he := fallbackHistory_eq n
  have hget : ∀ j, j < n + 1 →
      (fallbackHistory n).getD j default = mkFallbackPoint j := by
    intro j hj
    rw [he, List.getD_eq_getElem?_getD, List.getElem?_map, List.getElem?_range hj]
    rfl
  refine ⟨?_, ?_, ?_, ?_, ?_, by decide⟩
  · rw [he]
    simp [List.range_succ_eq_map]
  · rw [he]
    simp
  · rw [hget 0 (by omega)]
    rfl
  · intro j hj
    rw [hget j (by omega), hget (j + 1) (by omega)]
    rfl
  · intro pt hpt
    rw [he] at hpt
    rcases List.mem_map.mp hpt with ⟨j, _, rfl⟩
    rfl

theorem fallbackHistory_spec_witness :
    (((fallbackHistory 1).getD 0 default).monthIndex + 1
        = ((fallbackHistory 1).getD 1 default).monthIndex)
    ∧ (mkFallbackPoint 0).stockValue
        = jsRound (INITIAL_INVESTMENT * fallbackGrowthFactor (mkFallbackPoint 0).monthIndex) :=
  ⟨(fallbackHistory_spec 1).2.2.2.1 0 (by decide),
   (fallbackHistory_spec 1).2.2.2.2.1 (mkFallbackPoint 0)
     (by rw [fallbackHistory_eq]; exact List.mem_map_of_mem _ (by decide))⟩

/-- C6: every point of the produced equity history has a non-null
`stockValue`, that value is `round(shares * price)` for the source close
price at the point's index, and the history is exactly the image of the
indices with a truthy (present, non-zero) source price — null or missing
prices contribute no point at all. -/
theorem googleHistory_spec (tss : List ℤ) (prices : List (Option ℚ)) :
    (∀ pt ∈ googleHistory tss prices, pt.stockValue.isSome = true)
    ∧ (∀ pt ∈ googleHistory tss prices, ∃ i p, i < tss.length
        ∧ tss.getD i 0 = pt.fullDate
        ∧ prices.getD i none = some p
        ∧ pt.stockValue = some (jsRound (shares * p)))
    ∧ googleHistory tss prices
        = (tss.enum.filter fun q => keepPrice (prices.getD q.1 none)).map
            (fun q => mkHistoryPoint q.2 (prices.getD q.1 none)) := by
  have heq : googleHistory tss prices
      = (tss.enum.filter fun q => keepPrice (prices.getD q.1 none)).map
          (fun q => mkHistoryPoint q.2 (prices.getD q.1 none)) := by
    unfold googleHistory
    rw [List.filter_map]
    apply congrArg
    apply List.filter_congr
    intro q _
    simp [Function.comp, mkHistoryPoint_isSome]
  refine ⟨?_, ?_, heq⟩
  · intro pt hpt
    exact (List.mem_filter.mp hpt).2
  · intro pt hpt
    rw [heq] at hpt
    rcases List.mem_map.mp hpt with ⟨q, hq, rfl⟩
    rcases List.mem_filter.mp hq with ⟨hqe, hkeep⟩
    have hi : tss[q.1]? = some q.2 := List.mem_enum_iff_getElem?.mp hqe
    rcases List.getElem?_eq_some.mp hi with ⟨hlt, _⟩
    cases hpo : prices.getD q.1 none with
    | none => rw [hpo] at hkeep; cases hkeep
    | some p =>
        rw [hpo] at hkeep
        have hp : p ≠ 0 := of_decide_eq_true hkeep
        refine ⟨q.1, p, hlt, ?_, hpo, ?_⟩
        · rw [List.getD_eq_getElem?_getD, hi]
          rfl
        · exact mkHistoryPoint_stockValue_some q.2 p hp

theorem googleHistory_spec_witness :
    (mkHistoryPoint 100 (some 100)).stockValue.isSome = true :=
  (googleHistory_spec [100, 200] [some 100, none]).1 (mkHistoryPoint 100 (some 100))
    (by rw [googleHistory_example]; exact List.mem_singleton.mpr rfl)

/-- C2 counterexample: at a crypto snapshot value of 900 the display
string is `"$-100"`, with the minus sign after the dollar sign — not
`"-$100"` as claimed. -/
theorem bitcoinDisplay_counterexample :
    getBitcoinRevenueDisplay (some 900) btcVenture = "$-100"
    ∧ getBitcoinRevenueDisplay (some 900) btcVenture ≠ "-$100" := by
  have hd : getBitcoinRevenueDisplay (some 900) btcVenture = "$-100" := by
    simp only [getBitcoinRevenueDisplay, btcVenture, jsRound_profit_900]
    rw [ratLocaleString_intCast]
    decide
  exact ⟨hd, by rw [hd]; decide⟩

/-- C2 (amended): the reconciler writes `revenue = round(v - 1000)` into
the crypto record; at `v = 900` the revenue is `-100`, displayed `"$-100"`
(minus sign after the dollar sign, no `'+'` prefix); at `v = 1200` the
revenue is `200`, displayed `"+$200"`; and in general the display carries
a `'+'` prefix exactly when the profit is non-negative. -/
theorem bitcoinDisplay_spec (bv : ℚ) (v : Venture) (hb : v.isBitcoin = true) :
    BTC_INVESTMENT = 1000
    ∧ (updateBitcoinVenture bv v).revenue = some ((jsRound (bv - BTC_INVESTMENT) : ℤ) : ℚ)
    ∧ jsRound ((900 : ℚ) - BTC_INVESTMENT) = -100
    ∧ getBitcoinRevenueDisplay (some 900) v = "$-100"
    ∧ jsRound ((1200 : ℚ) - BTC_INVESTMENT) = 200
    ∧ getBitcoinRevenueDisplay (some 1200) v = "+$200"
    ∧ (∀ w : ℚ,
        getBitcoinRevenueDisplay (some w) v
          = (if 0 ≤ jsRound (w - BTC_INVESTMENT) then "+" else "") ++ "$"
              ++ ratLocaleString ((jsRound (w - BTC_INVESTMENT) : ℤ) : ℚ)) := by
  have hd : ∀ w : ℚ,
      getBitcoinRevenueDisplay (some w) v
        = (if 0 ≤ jsRound (w - BTC_INVESTMENT) then "+" else "") ++ "$"
            ++ ratLocaleString ((jsRound (w - BTC_INVESTMENT) : ℤ) : ℚ) := by
    intro w
    simp [getBitcoinRevenueDisplay, hb, String.append_assoc]
  refine ⟨rfl, by simp [updateBitcoinVenture, hb], jsRound_profit_900, ?_,
          jsRound_profit_1200, ?_, hd⟩
  · rw [hd 900, jsRound_profit_900, ratLocaleString_intCast]
    decide
  · rw [hd 1200, jsRound_profit_1200, ratLocaleString_intCast]
    decide

theorem bitcoinDisplay_spec_witness :
    getBitcoinRevenueDisplay (some 900) btcVenture = "$-100" :=
  (bitcoinDisplay_spec 900 btcVenture rfl).2.2.2.1

/-- C7 counterexample: at an equity price of 100 the derived
`currentStockValue` is 11132 (shares are `10000 / 89.83 ≈ 111.32`), not
the claimed 11135. -/
theorem currentStockValue_counterexample :
    currentStockValue (some 100) = some 11132
    ∧ currentStockValue (some 100) ≠ some 11135 := by
  refine ⟨currentStockValue_at_100, ?_⟩
  rw [currentStockValue_at_100]
  decide

/-- C7 (amended): on a fresh load with no persisted data (`load()` seeds
the hardcoded list) and a successful equity fetch whose latest price is
100, `currentStockValue` is `round((10000 / 89.83) * 100) = 11132` and
`stockGain` is 1132. -/
theorem currentStockValue_spec :
    loadVentures none = initialVentures
    ∧ currentStockValue (some 100) = some 11132
    ∧ stockGain (some 100) = some 1132 := by
  refine ⟨rfl, currentStockValue_at_100, ?_⟩
  simp only [stockGain, currentStockValue_at_100, INITIAL_INVESTMENT]
  norm_num
